import Mathlib

/-
Shallow embedding of src/libfswatch/src/libfswatch/c++/windows_monitor.cpp.

The embedding models:
  * the CHandle exclusive-ownership wrapper (lines 96-155) as pure
    state-transition functions that also report which raw handles were
    closed (CloseHandle calls);
  * the change-flag table and decode_flags (lines 182-215);
  * the FILE_NOTIFY_INFORMATION decoding loop of windows_monitor::run
    (lines 381-412) at the byte level: the notification buffer is a list
    of bytes, DWORD fields are read little-endian, names are runs of
    2-byte wide characters whose count is FileNameLength / sizeof(wchar_t)
    (wchar_t is 2 bytes on the target platform);
  * init_search_for_path (lines 276-310), stop_search_for_path
    (lines 312-315) and the per-path body of the watch loop
    (lines 335-424), with the outcomes of the OS calls (CreateFileW,
    malloc, ReadDirectoryChangesW, GetOverlappedResult, WideCharToMultiByte,
    ResetEvent) supplied as environment parameters, fatal throws of
    libfsw_exception modelled as Except.error, and the externally visible
    OS actions recorded in a trace.

Out-of-range buffer accesses are undefined behaviour in the C++ source;
the decoding model stops at the buffer bound, and all statements below
quantify only over buffers whose record chain stays in bounds.
-/

/-- Wide strings: one Nat per UTF-16 code unit. -/
abbrev WStr := List Nat

/-- Native handle values: NULL, INVALID_HANDLE_VALUE, or a real OS handle. -/
inductive HANDLE where
  | null
  | invalid
  | real (n : Nat)
deriving DecidableEq

namespace CHandle

/-- CHandle::is_valid (line 99-102): a handle is valid iff it is neither
NULL nor INVALID_HANDLE_VALUE. -/
def is_valid (h : HANDLE) : Bool :=
  match h with
  | .null => false
  | .invalid => false
  | .real _ => true

/-- CHandle::operator=(const HANDLE&) (lines 126-133): closes the
previously held handle if valid, then stores the new one.  Returns the
new stored handle and the list of handles passed to CloseHandle. -/
def assign (cur newh : HANDLE) : HANDLE × List HANDLE :=
  (newh, if is_valid cur then [cur] else [])

/-- CHandle::CHandle(CHandle&&) (lines 135-139): steals the source's
handle and leaves the source holding INVALID_HANDLE_VALUE.  Returns the
destination's and the source's stored handles after the move; nothing is
closed. -/
def moveCtor (src : HANDLE) : HANDLE × HANDLE :=
  (src, HANDLE.invalid)

/-- CHandle::operator=(CHandle&&) (lines 141-151): if the source is this
same object, no-op; otherwise close the currently held handle if valid,
steal the source's handle, and leave the source invalid.  Returns the
two resulting stored handles and the handles closed. -/
def moveAssign (same : Bool) (dst src : HANDLE) : (HANDLE × HANDLE) × List HANDLE :=
  if same then ((dst, src), [])
  else ((src, HANDLE.invalid), if is_valid dst then [dst] else [])

/-- CHandle::~CHandle (lines 107-114): closes the handle iff it is valid. -/
def destruct (cur : HANDLE) : List HANDLE :=
  if is_valid cur then [cur] else []

end CHandle

/-! ### Byte-level buffer primitives

The notification buffer written by ReadDirectoryChangesW is a list of
bytes.  A read past the end of the materialized buffer yields 0 here;
the claims only exercise in-bounds reads. -/

def readByte (buf : List Nat) (i : Nat) : Nat := buf.getD i 0

/-- One wide character (2 bytes, little-endian). -/
def readWchar (buf : List Nat) (i : Nat) : Nat :=
  readByte buf i + 256 * readByte buf (i + 1)

/-- One DWORD (4 bytes, little-endian). -/
def readDword (buf : List Nat) (i : Nat) : Nat :=
  readByte buf i + 256 * readByte buf (i + 1) + 65536 * readByte buf (i + 2) +
    16777216 * readByte buf (i + 3)

/-- A run of n wide characters starting at byte offset i. -/
def readWchars (buf : List Nat) : Nat → Nat → List Nat
  | _, 0 => []
  | i, n + 1 => readWchar buf i :: readWchars buf (i + 2) n

/-! ### FILE_NOTIFY_INFORMATION layout

Field offsets within a record starting at byte `curr`:
  +0  NextEntryOffset (DWORD)
  +4  Action          (DWORD)
  +8  FileNameLength  (DWORD, in bytes)
  +12 FileName        (WCHAR[], not NUL-terminated) -/

/-- wstring(currEntry->FileName, currEntry->FileNameLength/sizeof(wchar_t))
(line 395): the relative name is FileNameLength / 2 wide characters taken
from the name field; no terminator is consulted. -/
def record_name_chars (buf : List Nat) (curr : Nat) : List Nat :=
  readWchars buf (curr + 12) (readDword buf (curr + 8) / 2)

/-- Lines 387-409: if FileNameLength > 0, one event is produced whose
path is the watched directory, a backslash (code unit 92), and the
record's decoded relative name; otherwise no event. -/
def decode_step (path : WStr) (buf : List Nat) (curr : Nat) : List WStr :=
  if readDword buf (curr + 8) ≠ 0 then [path ++ [92] ++ record_name_chars buf curr]
  else []

/-- The decoding loop of lines 383-412: process the record at `curr`,
then stop if NextEntryOffset is zero, else advance by NextEntryOffset.
The fuel argument only bounds the recursion; since NextEntryOffset is
nonzero whenever the loop continues, the cursor strictly increases and
`buf.length + 1` fuel can never be exhausted before the in-bounds guard
stops the loop (decode_fromF_fuel below makes this formal). -/
def decode_fromF (path : WStr) (buf : List Nat) : Nat → Nat → List WStr
  | _, 0 => []
  | curr, fuel + 1 =>
    if curr < buf.length then
      if readDword buf curr = 0 then decode_step path buf curr
      else decode_step path buf curr ++ decode_fromF path buf (curr + readDword buf curr) fuel
    else []

/-- Decoding a filled notification buffer, starting at offset 0. -/
def decode_buffer (path : WStr) (buf : List Nat) : List WStr :=
  decode_fromF path buf 0 (buf.length + 1)

/-! ### Record serialization (for stating roundtrip properties) -/

/-- An abstract notification record: an action code and a relative name
given as wide characters. -/
structure Record where
  action : Nat
  name : List Nat
deriving DecidableEq

def encodeWchar (w : Nat) : List Nat := [w % 256, w / 256 % 256]

def encodeDword (d : Nat) : List Nat :=
  [d % 256, d / 256 % 256, d / 65536 % 256, d / 16777216 % 256]

def encodeName : List Nat → List Nat
  | [] => []
  | w :: ws => encodeWchar w ++ encodeName ws

/-- The bytes of one FILE_NOTIFY_INFORMATION record with the given
NextEntryOffset. -/
def recordBytes (nextOff : Nat) (r : Record) : List Nat :=
  encodeDword nextOff ++ encodeDword r.action ++ encodeDword (2 * r.name.length) ++
    encodeName r.name

/-- A chain of records: every record but the last points at the
immediately following record; the last has NextEntryOffset 0. -/
def encodeRecords : List Record → List Nat
  | [] => []
  | [r] => recordBytes 0 r
  | r :: rs => recordBytes (12 + 2 * r.name.length) r ++ encodeRecords rs

/-- The events the decoder is expected to emit for a record list:
one event per record with a nonempty name, in record order. -/
def eventsOf (path : WStr) : List Record → List WStr
  | [] => []
  | r :: rs => (if r.name = [] then [] else [path ++ [92] ++ r.name]) ++ eventsOf path rs

/-- A record is encodable: its name characters fit in one wide character
each and its total record size fits in the NextEntryOffset DWORD. -/
def encRecordOk (r : Record) : Prop :=
  (∀ c ∈ r.name, c < 65536) ∧ 12 + 2 * r.name.length < 4294967296

/-- A well-formed notification record additionally carries a nonempty name. -/
def wfRecord (r : Record) : Prop :=
  r.name ≠ [] ∧ encRecordOk r

/-! ### Change-flag table (lines 182-215) -/

/-- Modelled from the spec: the semantic flag set
{Created, Removed, Updated, MovedFrom, MovedTo, Renamed} of the library's
event-flag enumeration (the enumeration itself is declared outside this
source file); constructors are listed in the enumeration's declared
order, which is what std::set ordering uses. -/
inductive fsw_event_flag where
  | Created
  | Updated
  | Removed
  | Renamed
  | MovedFrom
  | MovedTo
deriving DecidableEq

/-- Position of a flag in the enumeration's declared order (only the
relative order matters: it determines the iteration order of the
std::set used by decode_flags). -/
def fsw_event_flag.rank : fsw_event_flag → Nat
  | .Created => 0
  | .Updated => 1
  | .Removed => 2
  | .Renamed => 3
  | .MovedFrom => 4
  | .MovedTo => 5

/-- Ordered insertion without duplicates: the effect of
std::set<fsw_event_flag>::insert. -/
def setInsert (x : fsw_event_flag) : List fsw_event_flag → List fsw_event_flag
  | [] => [x]
  | y :: ys =>
    if x.rank < y.rank then x :: y :: ys
    else if x.rank = y.rank then y :: ys
    else y :: setInsert x ys

/-- Windows action codes (winnt.h). -/
def FILE_ACTION_ADDED : Nat := 1
def FILE_ACTION_REMOVED : Nat := 2
def FILE_ACTION_MODIFIED : Nat := 3
def FILE_ACTION_RENAMED_OLD_NAME : Nat := 4
def FILE_ACTION_RENAMED_NEW_NAME : Nat := 5

structure WindowsFlagType where
  action : Nat
  types : List fsw_event_flag

/-- create_flag_type_vector (lines 188-198). -/
def create_flag_type_vector : List WindowsFlagType :=
  [⟨FILE_ACTION_ADDED, [.Created]⟩,
   ⟨FILE_ACTION_REMOVED, [.Removed]⟩,
   ⟨FILE_ACTION_MODIFIED, [.Updated]⟩,
   ⟨FILE_ACTION_RENAMED_OLD_NAME, [.MovedFrom, .Renamed]⟩,
   ⟨FILE_ACTION_RENAMED_NEW_NAME, [.MovedTo, .Renamed]⟩]

/-- decode_flags (lines 202-215): collect into a set the flag lists of
every table entry whose action equals the given code, and return the
set's elements (in set order). -/
def decode_flags (flag : Nat) : List fsw_event_flag :=
  create_flag_type_vector.foldl
    (fun acc et =>
      if flag = et.action then et.types.foldl (fun a t => setInsert t a) acc else acc)
    []

/-! ### Sessions, registry, and the watch loop (lines 157-180, 276-427) -/

/-- DirectoryChangeEvent (lines 157-173), abstracting the buffer and
OVERLAPPED allocations to their sizes; sizeof(FILE_NOTIFY_INFORMATION)
is 16 bytes. -/
structure DirectoryChangeEvent where
  handle : HANDLE
  buffer_size : Nat
  bytes_returned : Nat
deriving DecidableEq

/-- DirectoryChangeEvent's constructor with the given buffer_length
(init_search_for_path uses 128). -/
def mkDCE (buffer_length : Nat) (h : HANDLE) : DirectoryChangeEvent :=
  { handle := h, buffer_size := 16 * buffer_length, bytes_returned := 0 }

/-- dce_by_path: the session registry, an association list keyed by the
watched path. -/
abbrev Registry := List (WStr × DirectoryChangeEvent)

def lookupReg : Registry → WStr → Option DirectoryChangeEvent
  | [], _ => none
  | (q, d) :: rest, p => if q = p then some d else lookupReg rest p

def eraseReg : Registry → WStr → Registry
  | [], _ => []
  | (q, d) :: rest, p => if q = p then eraseReg rest p else (q, d) :: eraseReg rest p

/-- load->dce_by_path[path] = std::move(dce): insert-or-assign. -/
def insertReg (reg : Registry) (p : WStr) (d : DirectoryChangeEvent) : Registry :=
  eraseReg reg p ++ [(p, d)]

/-- stop_search_for_path (lines 312-315): erase the session from the
registry (which releases its resources through the wrappers). -/
def stop_search_for_path (reg : Registry) (p : WStr) : Registry :=
  eraseReg reg p

def ERROR_IO_INCOMPLETE : Nat := 996
def ERROR_NOTIFY_ENUM_DIR : Nat := 1022

/-- Outcome of GetOverlappedResult: failure with a GetLastError code, or
success with the byte count written. -/
inductive PollResult where
  | failed (err : Nat)
  | success (bytes : Nat)
deriving DecidableEq

/-- Externally visible OS actions performed by one per-path step. -/
inductive OSAction where
  | openFile (h : HANDLE)
  | issueRead
  | resetEvent
  | closeHandle (h : HANDLE)
deriving DecidableEq

/-- The fatal conditions: each corresponds to a `throw libfsw_exception`
inside the watch loop (lines 170-171, 402, 415). -/
inductive FatalError where
  | allocFailed
  | convFailed
  | resetFailed
deriving DecidableEq

/-- Environment for one per-path step of one tick: the outcomes the OS
calls would produce if made. -/
structure TickEnv where
  openResult : HANDLE
  allocOk : Bool
  readOk : Bool
  poll : PollResult
  buffer : List Nat
  convOk : Bool
  resetOk : Bool
  reissueOk : Bool
deriving DecidableEq

/-- init_search_for_path (lines 276-310): open the directory; on an
invalid handle return false with the registry untouched.  Construct a
DirectoryChangeEvent (its constructor throws on allocation failure;
note the raw handle is not yet owned at that point).  Issue the first
read; on failure return false with the registry untouched — the dce
local is destroyed, closing the opened handle.  Only on success is the
session moved into the registry. -/
def init_search_for_path (reg : Registry) (path : WStr) (env : TickEnv) :
    Except FatalError (Bool × Registry × List OSAction) :=
  if CHandle.is_valid env.openResult = false then
    Except.ok (false, reg, [])
  else if env.allocOk = false then
    Except.error FatalError.allocFailed
  else if env.readOk = false then
    Except.ok (false, reg,
      [OSAction.openFile env.openResult, OSAction.issueRead,
       OSAction.closeHandle env.openResult])
  else
    Except.ok (true, insertReg reg path (mkDCE 128 env.openResult),
      [OSAction.openFile env.openResult, OSAction.issueRead])

/-- Lines 354-424: poll the outstanding read of the session for `path`.
GetOverlappedResult failure: ERROR_IO_INCOMPLETE is a no-op; every other
error — including ERROR_NOTIFY_ENUM_DIR, the buffer-overflow signal,
which only gets an extra log line before falling through — evicts the
session and moves on.  On success: when bytes_returned is nonzero the
buffer is decoded (a WideCharToMultiByte failure while converting an
emitted path throws), then ResetEvent (failure throws), then the read is
reissued (failure evicts). -/
def poll_session (reg : Registry) (path : WStr) (env : TickEnv) :
    Except FatalError (Registry × List WStr × List OSAction) :=
  match env.poll with
  | PollResult.failed err =>
    if err = ERROR_IO_INCOMPLETE then Except.ok (reg, [], [])
    else Except.ok (stop_search_for_path reg path, [], [])
  | PollResult.success bytes =>
    let events := if bytes = 0 then [] else decode_buffer path env.buffer
    if events ≠ [] ∧ env.convOk = false then Except.error FatalError.convFailed
    else if env.resetOk = false then Except.error FatalError.resetFailed
    else if env.reissueOk = false then
      Except.ok (stop_search_for_path reg path, events,
        [OSAction.resetEvent, OSAction.issueRead])
    else Except.ok (reg, events, [OSAction.resetEvent, OSAction.issueRead])

/-- The per-path body of the watch loop (lines 335-424): if the path has
no session, initialize lazily (a failed initialization skips the path
for this tick); then poll the session.  The re-lookup throw at line 350
is unreachable under map semantics and is omitted. -/
def process_path (reg : Registry) (path : WStr) (env : TickEnv) :
    Except FatalError (Registry × List WStr × List OSAction) :=
  match lookupReg reg path with
  | some _ => poll_session reg path env
  | none =>
    match init_search_for_path reg path env with
    | Except.error f => Except.error f
    | Except.ok (ok, reg1, tr) =>
      if ok = false then Except.ok (reg1, [], tr)
      else
        match poll_session reg1 path env with
        | Except.error f => Except.error f
        | Except.ok (reg2, evs, tr2) => Except.ok (reg2, evs, tr ++ tr2)

/-- The step reaches the polling stage iff a session already exists or
lazy initialization succeeds. -/
def reachesPoll (reg : Registry) (path : WStr) (env : TickEnv) : Bool :=
  (lookupReg reg path).isSome ||
    (CHandle.is_valid env.openResult && env.allocOk && env.readOk)

/-- The events the polling stage would decode from the environment. -/
def pollEvents (path : WStr) (env : TickEnv) : List WStr :=
  match env.poll with
  | PollResult.failed _ => []
  | PollResult.success bytes => if bytes = 0 then [] else decode_buffer path env.buffer

/-! ### Byte-level lemmas -/

theorem encodeDword_length (d : Nat) : (encodeDword d).length = 4 := rfl

theorem encodeWchar_length (w : Nat) : (encodeWchar w).length = 2 := rfl

theorem encodeName_length (ws : List Nat) : (encodeName ws).length = 2 * ws.length := by
  induction ws with
  | nil => rfl
  | cons w ws ih => simp [encodeName, encodeWchar, ih]; omega

theorem recordBytes_length (off : Nat) (r : Record) :
    (recordBytes off r).length = 12 + 2 * r.name.length := by
  simp [recordBytes, encodeName_length, encodeDword_length]
  omega

theorem readByte_append (pre buf : List Nat) (i : Nat) :
    readByte (pre ++ buf) (pre.length + i) = readByte buf i := by
  unfold readByte
  rw [List.getD_append_right _ _ _ _ (by omega)]
  congr 1
  omega

theorem readWchar_append (pre buf : List Nat) (i : Nat) :
    readWchar (pre ++ buf) (pre.length + i) = readWchar buf i := by
  unfold readWchar
  rw [show pre.length + i + 1 = pre.length + (i + 1) by omega, readByte_append,
    readByte_append]

theorem readDword_append (pre buf : List Nat) (i : Nat) :
    readDword (pre ++ buf) (pre.length + i) = readDword buf i := by
  unfold readDword
  rw [show pre.length + i + 1 = pre.length + (i + 1) by omega,
    show pre.length + i + 2 = pre.length + (i + 2) by omega,
    show pre.length + i + 3 = pre.length + (i + 3) by omega,
    readByte_append, readByte_append, readByte_append, readByte_append]

theorem readWchars_append (pre buf : List Nat) (i n : Nat) :
    readWchars (pre ++ buf) (pre.length + i) n = readWchars buf i n := by
  induction n generalizing i with
  | zero => rfl
  | succ n ih =>
    unfold readWchars
    rw [readWchar_append, show pre.length + i + 2 = pre.length + (i + 2) by omega, ih]

theorem readWchars_length (buf : List Nat) (i n : Nat) :
    (readWchars buf i n).length = n := by
  induction n generalizing i with
  | zero => rfl
  | succ n ih => unfold readWchars; simp [ih]

theorem readWchars_congr (buf buf2 : List Nat) (i n : Nat)
    (h : ∀ j, j < 2 * n → readByte buf (i + j) = readByte buf2 (i + j)) :
    readWchars buf i n = readWchars buf2 i n := by
  induction n generalizing i with
  | zero => rfl
  | succ n ih =>
    unfold readWchars
    have h0 : readByte buf i = readByte buf2 i := by
      have := h 0 (by omega); simpa using this
    have h1 : readByte buf (i + 1) = readByte buf2 (i + 1) := h 1 (by omega)
    rw [show readWchar buf i = readWchar buf2 i by unfold readWchar; rw [h0, h1]]
    rw [ih (i + 2) (fun j hj => by
      have := h (j + 2) (by omega)
      rw [show i + 2 + j = i + (j + 2) by omega]
      exact this)]

theorem readDword_encode (d : Nat) (rest : List Nat) (h : d < 4294967296) :
    readDword (encodeDword d ++ rest) 0 = d := by
  show (d % 256) + 256 * (d / 256 % 256) + 65536 * (d / 65536 % 256) +
    16777216 * (d / 16777216 % 256) = d
  omega

theorem readWchar_encode (w : Nat) (rest : List Nat) (h : w < 65536) :
    readWchar (encodeWchar w ++ rest) 0 = w := by
  show (w % 256) + 256 * (w / 256 % 256) = w
  omega

theorem readWchars_encodeName (ws rest : List Nat) (h : ∀ c ∈ ws, c < 65536) :
    readWchars (encodeName ws ++ rest) 0 ws.length = ws := by
  induction ws generalizing rest with
  | nil => rfl
  | cons w ws ih =>
    show readWchars (encodeName (w :: ws) ++ rest) 0 (ws.length + 1) = w :: ws
    unfold readWchars
    rw [show encodeName (w :: ws) ++ rest = encodeWchar w ++ (encodeName ws ++ rest) by
      simp [encodeName, List.append_assoc]]
    congr 1
    · exact readWchar_encode w _ (h w (by simp))
    · rw [show (0 : Nat) + 2 = (encodeWchar w).length + 0 by simp [encodeWchar]]
      rw [readWchars_append]
      exact ih _ (fun c hc => h c (by simp [hc]))

/-! ### Record field lemmas -/

theorem record_nextOff (pre tail : List Nat) (off : Nat) (r : Record)
    (h : off < 4294967296) :
    readDword (pre ++ (recordBytes off r ++ tail)) pre.length = off := by
  rw [show recordBytes off r ++ tail =
      encodeDword off ++ (encodeDword r.action ++ encodeDword (2 * r.name.length) ++
        encodeName r.name ++ tail) by simp [recordBytes, List.append_assoc]]
  rw [show pre.length = pre.length + 0 by omega, readDword_append]
  exact readDword_encode off _ h

theorem record_nameLen (pre tail : List Nat) (off : Nat) (r : Record)
    (h : 2 * r.name.length < 4294967296) :
    readDword (pre ++ (recordBytes off r ++ tail)) (pre.length + 8) =
      2 * r.name.length := by
  rw [show pre ++ (recordBytes off r ++ tail) =
      (pre ++ encodeDword off ++ encodeDword r.action) ++
        (encodeDword (2 * r.name.length) ++ (encodeName r.name ++ tail)) by
    simp [recordBytes, List.append_assoc]]
  rw [show pre.length + 8 = (pre ++ encodeDword off ++ encodeDword r.action).length + 0 by
    simp [encodeDword_length]]
  rw [readDword_append]
  exact readDword_encode _ _ h

theorem record_name (pre tail : List Nat) (off : Nat) (r : Record)
    (h : ∀ c ∈ r.name, c < 65536) :
    readWchars (pre ++ (recordBytes off r ++ tail)) (pre.length + 12) r.name.length =
      r.name := by
  rw [show pre ++ (recordBytes off r ++ tail) =
      (pre ++ encodeDword off ++ encodeDword r.action ++ encodeDword (2 * r.name.length)) ++
        (encodeName r.name ++ tail) by simp [recordBytes, List.append_assoc]]
  rw [show pre.length + 12 =
      (pre ++ encodeDword off ++ encodeDword r.action ++
        encodeDword (2 * r.name.length)).length + 0 by simp [encodeDword_length]]
  rw [readWchars_append]
  exact readWchars_encodeName _ _ h

/-- The decoded name of an encoded record is exactly its name. -/
theorem record_name_chars_encode (pre tail : List Nat) (off : Nat) (r : Record)
    (h : ∀ c ∈ r.name, c < 65536) (h2 : 2 * r.name.length < 4294967296) :
    record_name_chars (pre ++ (recordBytes off r ++ tail)) pre.length = r.name := by
  unfold record_name_chars
  rw [record_nameLen pre tail off r h2]
  rw [show 2 * r.name.length / 2 = r.name.length by omega]
  exact record_name pre tail off r h

/-- decode_step on an encoded record: one event iff the name is nonempty. -/
theorem decode_step_encode (path : WStr) (pre tail : List Nat) (off : Nat) (r : Record)
    (h : ∀ c ∈ r.name, c < 65536) (h2 : 2 * r.name.length < 4294967296) :
    decode_step path (pre ++ (recordBytes off r ++ tail)) pre.length =
      (if r.name = [] then [] else [path ++ [92] ++ r.name]) := by
  unfold decode_step
  rw [record_nameLen pre tail off r h2, record_name_chars_encode pre tail off r h h2]
  rcases r.name with _ | ⟨c, cs⟩
  · simp
  · simp

/-! ### Fuel insensitivity of the decoding loop -/

theorem decode_fromF_fuel (path buf : List Nat) :
    ∀ fuel fuel2 curr, buf.length - curr < fuel → buf.length - curr < fuel2 →
      decode_fromF path buf curr fuel = decode_fromF path buf curr fuel2 := by
  intro fuel
  induction fuel with
  | zero => intro fuel2 curr h _; omega
  | succ fuel ih =>
    intro fuel2 curr h h2
    cases fuel2 with
    | zero => omega
    | succ fuel2 =>
      show decode_fromF path buf curr (fuel + 1) = decode_fromF path buf curr (fuel2 + 1)
      unfold decode_fromF
      by_cases hc : curr < buf.length
      · simp only [hc, if_true]
        by_cases hoff : readDword buf curr = 0
        · simp [hoff]
        · simp only [hoff, if_false]
          have hge : 1 ≤ readDword buf curr := by omega
          rw [ih fuel2 (curr + readDword buf curr) (by omega) (by omega)]
      · simp [hc]

/-! ### Decoding an encoded record chain -/

theorem encodeRecords_cons_length (r : Record) (rs : List Record) :
    12 ≤ (encodeRecords (r :: rs)).length := by
  cases rs with
  | nil =>
    rw [show encodeRecords [r] = recordBytes 0 r from rfl, recordBytes_length]
    omega
  | cons r2 rs2 =>
    rw [show encodeRecords (r :: r2 :: rs2) =
      recordBytes (12 + 2 * r.name.length) r ++ encodeRecords (r2 :: rs2) from rfl]
    rw [List.length_append, recordBytes_length]
    omega

theorem decode_encode_core (path : WStr) :
    ∀ (rs : List Record) (pre junk : List Nat) (fuel : Nat),
      rs ≠ [] → (∀ r ∈ rs, encRecordOk r) →
      (pre ++ encodeRecords rs ++ junk).length - pre.length < fuel →
      decode_fromF path (pre ++ encodeRecords rs ++ junk) pre.length fuel =
        eventsOf path rs := by
  intro rs
  induction rs with
  | nil => intro pre junk fuel hne; exact absurd rfl hne
  | cons r rs ih =>
    intro pre junk fuel _ hwf hfuel
    have hok : encRecordOk r := hwf r (by simp)
    have hchars : ∀ c ∈ r.name, c < 65536 := hok.1
    have hsz : 12 + 2 * r.name.length < 4294967296 := hok.2
    cases fuel with
    | zero => omega
    | succ fuel =>
      cases rs with
      | nil =>
        rw [show encodeRecords [r] = recordBytes 0 r from rfl] at hfuel ⊢
        rw [show pre ++ recordBytes 0 r ++ junk = pre ++ (recordBytes 0 r ++ junk) by
          simp [List.append_assoc]] at hfuel ⊢
        have hlen : (pre ++ (recordBytes 0 r ++ junk)).length =
            pre.length + (12 + 2 * r.name.length) + junk.length := by
          simp [recordBytes_length]
          omega
        unfold decode_fromF
        rw [if_pos (by omega)]
        rw [record_nextOff pre junk 0 r (by omega), if_pos rfl]
        rw [decode_step_encode path pre junk 0 r hchars (by omega)]
        simp [eventsOf]
      | cons r2 rs2 =>
        rw [show encodeRecords (r :: r2 :: rs2) =
          recordBytes (12 + 2 * r.name.length) r ++ encodeRecords (r2 :: rs2)
          from rfl] at hfuel ⊢
        rw [show pre ++ (recordBytes (12 + 2 * r.name.length) r ++
              encodeRecords (r2 :: rs2)) ++ junk =
            pre ++ (recordBytes (12 + 2 * r.name.length) r ++
              (encodeRecords (r2 :: rs2) ++ junk)) by
          simp [List.append_assoc]] at hfuel ⊢
        have htail : 12 ≤ (encodeRecords (r2 :: rs2)).length :=
          encodeRecords_cons_length r2 rs2
        have hblen : (pre ++ (recordBytes (12 + 2 * r.name.length) r ++
            (encodeRecords (r2 :: rs2) ++ junk))).length =
            pre.length + (12 + 2 * r.name.length) +
              ((encodeRecords (r2 :: rs2)).length + junk.length) := by
          simp [recordBytes_length]
          omega
        unfold decode_fromF
        rw [if_pos (by omega)]
        rw [record_nextOff pre _ (12 + 2 * r.name.length) r (by omega)]
        rw [if_neg (by omega)]
        rw [decode_step_encode path pre _ (12 + 2 * r.name.length) r hchars (by omega)]
        have hpre2len : (pre ++ recordBytes (12 + 2 * r.name.length) r).length =
            pre.length + (12 + 2 * r.name.length) := by
          simp [recordBytes_length]
        rw [show pre.length + (12 + 2 * r.name.length) =
            (pre ++ recordBytes (12 + 2 * r.name.length) r).length from hpre2len.symm]
        rw [show pre ++ (recordBytes (12 + 2 * r.name.length) r ++
              (encodeRecords (r2 :: rs2) ++ junk)) =
            (pre ++ recordBytes (12 + 2 * r.name.length) r) ++
              encodeRecords (r2 :: rs2) ++ junk by simp [List.append_assoc]]
        rw [ih (pre ++ recordBytes (12 + 2 * r.name.length) r) junk fuel (by simp)
          (fun r3 hr3 => hwf r3 (by simp [hr3]))
          (by
            rw [show (pre ++ recordBytes (12 + 2 * r.name.length) r) ++
                encodeRecords (r2 :: rs2) ++ junk =
                pre ++ (recordBytes (12 + 2 * r.name.length) r ++
                  (encodeRecords (r2 :: rs2) ++ junk)) by simp [List.append_assoc]]
            omega)]
        rw [show eventsOf path (r :: r2 :: rs2) =
          (if r.name = [] then [] else [path ++ [92] ++ r.name]) ++
            eventsOf path (r2 :: rs2) from rfl]

/-! ### Registry lemmas -/

theorem lookupReg_eraseReg (reg : Registry) (p : WStr) :
    lookupReg (eraseReg reg p) p = none := by
  induction reg with
  | nil => rfl
  | cons e rest ih =>
    obtain ⟨q, d⟩ := e
    by_cases h : q = p
    · simpa [eraseReg, h] using ih
    · simp [eraseReg, lookupReg, h, ih]

theorem lookupReg_append_none (l1 l2 : Registry) (p : WStr)
    (h : lookupReg l1 p = none) :
    lookupReg (l1 ++ l2) p = lookupReg l2 p := by
  induction l1 with
  | nil => rfl
  | cons e rest ih =>
    obtain ⟨q, d⟩ := e
    by_cases hq : q = p
    · simp [lookupReg, hq] at h
    · rw [List.cons_append]
      rw [show lookupReg ((q, d) :: (rest ++ l2)) p = lookupReg (rest ++ l2) p by
        simp [lookupReg, hq]]
      rw [show lookupReg ((q, d) :: rest) p = lookupReg rest p by
        simp [lookupReg, hq]] at h
      exact ih h

theorem lookupReg_insertReg (reg : Registry) (p : WStr) (d : DirectoryChangeEvent) :
    lookupReg (insertReg reg p d) p = some d := by
  unfold insertReg
  rw [lookupReg_append_none _ _ _ (lookupReg_eraseReg reg p)]
  simp [lookupReg]

/-! ### Events of uniformly nonempty-named records -/

theorem eventsOf_all_nonempty (path : WStr) (rs : List Record)
    (h : ∀ r ∈ rs, r.name ≠ []) :
    eventsOf path rs = rs.map (fun r => path ++ [92] ++ r.name) := by
  induction rs with
  | nil => rfl
  | cons r rs ih =>
    unfold eventsOf
    rw [if_neg (h r (by simp)), ih (fun r2 h2 => h r2 (by simp [h2]))]
    rfl

theorem decode_buffer_encode (path : WStr) (rs : List Record) (junk : List Nat)
    (hne : rs ≠ []) (hwf : ∀ r ∈ rs, encRecordOk r) :
    decode_buffer path (encodeRecords rs ++ junk) = eventsOf path rs := by
  unfold decode_buffer
  have h := decode_encode_core path rs [] junk
    ((encodeRecords rs ++ junk).length + 1) hne hwf (by simp)
  simpa using h

instance (r : Record) : Decidable (encRecordOk r) := by
  unfold encRecordOk
  infer_instance

instance (r : Record) : Decidable (wfRecord r) := by
  unfold wfRecord
  infer_instance

/-- One unfolding of the decoding loop at positive fuel. -/
theorem decode_fromF_succ (path buf : List Nat) (curr fuel : Nat) :
    decode_fromF path buf curr (fuel + 1) =
      if curr < buf.length then
        if readDword buf curr = 0 then decode_step path buf curr
        else decode_step path buf curr ++
          decode_fromF path buf (curr + readDword buf curr) fuel
      else [] := rfl

/-! ### Concrete fixtures used by witnesses -/

def pW : WStr := [112]

def dceW : DirectoryChangeEvent := mkDCE 128 (HANDLE.real 7)

def regW : Registry := [(pW, dceW)]

/-! ### Claim C2 -/

/-- C2: a buffer containing N well-formed notification records (followed by
arbitrary bytes beyond the terminal record, which are never consulted
because decoding stops at the first record whose NextEntryOffset is zero)
decodes to exactly N ChangeEvents, in record order, each a non-empty
absolute path equal to the watched directory, a separator, and the
record's decoded relative name. -/
theorem decode_emits_all_wellformed_records (path : WStr) (rs : List Record)
    (junk : List Nat) (hne : rs ≠ []) (hwf : ∀ r ∈ rs, wfRecord r) :
    decode_buffer path (encodeRecords rs ++ junk) =
      rs.map (fun r => path ++ [92] ++ r.name) ∧
    (decode_buffer path (encodeRecords rs ++ junk)).length = rs.length ∧
    ∀ e ∈ decode_buffer path (encodeRecords rs ++ junk), e ≠ [] := by
  have h1 : decode_buffer path (encodeRecords rs ++ junk) =
      rs.map (fun r => path ++ [92] ++ r.name) := by
    rw [decode_buffer_encode path rs junk hne (fun r hr => (hwf r hr).2)]
    exact eventsOf_all_nonempty path rs (fun r hr => (hwf r hr).1)
  refine ⟨h1, by simp [h1], ?_⟩
  intro e he
  rw [h1] at he
  obtain ⟨r, _, rfl⟩ := List.mem_map.1 he
  simp

/-- Witness for C2: two records (Added "a", Modified "b") plus trailing junk
decode to the two expected absolute paths, in order. -/
theorem decode_emits_all_wellformed_records_witness :
    ([⟨1, [97]⟩, ⟨3, [98]⟩] : List Record) ≠ [] ∧
    (∀ r ∈ ([⟨1, [97]⟩, ⟨3, [98]⟩] : List Record), wfRecord r) ∧
    decode_buffer pW (encodeRecords [⟨1, [97]⟩, ⟨3, [98]⟩] ++ [9, 9, 9]) =
      [[112, 92, 97], [112, 92, 98]] :=
  ⟨by decide, by decide,
    (decode_emits_all_wellformed_records pW [⟨1, [97]⟩, ⟨3, [98]⟩] [9, 9, 9]
      (by decide) (by decide)).1⟩

/-! ### Claim C4 -/

/-- C4: a record whose name field declares byte length L decodes to a
relative name of exactly L / 2 characters (2 = sizeof(wchar_t)), and the
decoded name depends only on the bytes of the name field actually
consumed — any two buffers agreeing there decode the same name, so no
terminator and no byte beyond the declared length is consulted. -/
theorem record_name_length_exact (buf buf2 : List Nat) (curr L : Nat)
    (hL : readDword buf (curr + 8) = L) (hL2 : readDword buf2 (curr + 8) = L)
    (hsame : ∀ j, j < 2 * (L / 2) →
      readByte buf (curr + 12 + j) = readByte buf2 (curr + 12 + j)) :
    (record_name_chars buf curr).length = L / 2 ∧
    record_name_chars buf curr = record_name_chars buf2 curr := by
  unfold record_name_chars
  rw [hL, hL2]
  exact ⟨readWchars_length _ _ _, readWchars_congr _ _ _ _ hsame⟩

/-- Buffer for the C4 witness: a record at offset 0 declaring a 4-byte name
"ab", with two junk bytes after the name field. -/
def bufC4a : List Nat := [0, 0, 0, 0, 1, 0, 0, 0, 4, 0, 0, 0, 97, 0, 98, 0, 7, 7]

/-- Same record bytes as bufC4a but with different content after the
declared name bytes. -/
def bufC4b : List Nat := [0, 0, 0, 0, 1, 0, 0, 0, 4, 0, 0, 0, 97, 0, 98, 0, 5, 5, 5]

/-- Witness for C4: two buffers declaring L = 4 that agree on the four name
bytes but differ afterwards decode the same 2-character name. -/
theorem record_name_length_exact_witness :
    readDword bufC4a 8 = 4 ∧ readDword bufC4b 8 = 4 ∧
    (record_name_chars bufC4a 0).length = 2 ∧
    record_name_chars bufC4a 0 = record_name_chars bufC4b 0 :=
  ⟨by decide, by decide,
    (record_name_length_exact bufC4a bufC4b 0 4 (by decide) (by decide) (by decide)).1,
    (record_name_length_exact bufC4a bufC4b 0 4 (by decide) (by decide) (by decide)).2⟩

/-! ### Claim C10 -/

/-- C10: a record whose declared name byte length is zero produces no event
(decode_step yields nothing), and decoding still advances past it to the
following records using its NextEntryOffset (or stops there if that offset
is zero). -/
theorem zero_length_record_skipped (path : WStr) (buf : List Nat) (curr fuel : Nat)
    (hin : curr < buf.length) (hzero : readDword buf (curr + 8) = 0) :
    (readDword buf curr ≠ 0 →
      decode_fromF path buf curr (fuel + 1) =
        decode_fromF path buf (curr + readDword buf curr) fuel) ∧
    (readDword buf curr = 0 → decode_fromF path buf curr (fuel + 1) = []) := by
  have hstep : decode_step path buf curr = [] := by
    unfold decode_step
    rw [hzero]
    simp
  constructor
  · intro hoff
    rw [decode_fromF_succ, if_pos hin, if_neg hoff, hstep]
    simp
  · intro hoff
    rw [decode_fromF_succ, if_pos hin, if_pos hoff, hstep]

/-- Buffer holding a zero-name-length record (NextEntryOffset 16) followed
by an Added record for "a". -/
def bufZ : List Nat :=
  [16, 0, 0, 0, 3, 0, 0, 0, 0, 0, 0, 0, 0, 0, 0, 0] ++ encodeRecords [⟨1, [97]⟩]

/-- Witness for C10: the zero-length record at offset 0 of bufZ emits nothing
and decoding continues at its NextEntryOffset 16, where the following record
decodes normally. -/
theorem zero_length_record_skipped_witness :
    (0 : Nat) < bufZ.length ∧ readDword bufZ 8 = 0 ∧ readDword bufZ 0 ≠ 0 ∧
    decode_fromF pW bufZ 0 30 = decode_fromF pW bufZ (0 + readDword bufZ 0) 29 ∧
    decode_fromF pW bufZ (0 + readDword bufZ 0) 29 = [[112, 92, 97]] :=
  ⟨by decide, by decide, by decide,
    (zero_length_record_skipped pW bufZ 0 29 (by decide) (by decide)).1 (by decide),
    by decide⟩

/-! ### Claim C3 -/

/-- C3: the change-flag mapping decode_flags sends Added to {Created},
Removed to {Removed}, Modified to {Updated}, RenamedOldName to
{MovedFrom, Renamed}, RenamedNewName to {MovedTo, Renamed}, and every
other action code to the empty flag set. -/
theorem decode_flags_table_exact :
    decode_flags FILE_ACTION_ADDED = [fsw_event_flag.Created] ∧
    decode_flags FILE_ACTION_REMOVED = [fsw_event_flag.Removed] ∧
    decode_flags FILE_ACTION_MODIFIED = [fsw_event_flag.Updated] ∧
    (∀ f, f ∈ decode_flags FILE_ACTION_RENAMED_OLD_NAME ↔
      (f = fsw_event_flag.MovedFrom ∨ f = fsw_event_flag.Renamed)) ∧
    (∀ f, f ∈ decode_flags FILE_ACTION_RENAMED_NEW_NAME ↔
      (f = fsw_event_flag.MovedTo ∨ f = fsw_event_flag.Renamed)) ∧
    (∀ a : Nat, a ≠ FILE_ACTION_ADDED → a ≠ FILE_ACTION_REMOVED →
      a ≠ FILE_ACTION_MODIFIED → a ≠ FILE_ACTION_RENAMED_OLD_NAME →
      a ≠ FILE_ACTION_RENAMED_NEW_NAME → decode_flags a = []) := by
  refine ⟨by decide, by decide, by decide, ?_, ?_, ?_⟩
  · intro f
    cases f <;> decide
  · intro f
    cases f <;> decide
  · intro a h1 h2 h3 h4 h5
    simp only [FILE_ACTION_ADDED, FILE_ACTION_REMOVED, FILE_ACTION_MODIFIED,
      FILE_ACTION_RENAMED_OLD_NAME, FILE_ACTION_RENAMED_NEW_NAME] at h1 h2 h3 h4 h5
    simp [decode_flags, create_flag_type_vector, FILE_ACTION_ADDED,
      FILE_ACTION_REMOVED, FILE_ACTION_MODIFIED, FILE_ACTION_RENAMED_OLD_NAME,
      FILE_ACTION_RENAMED_NEW_NAME, h1, h2, h3, h4, h5]

/-- Witness for C3: the unrecognized action code 999 maps to the empty flag
set, and the renamed-old-name membership equivalence at MovedFrom. -/
theorem decode_flags_table_exact_witness :
    (999 : Nat) ≠ FILE_ACTION_ADDED ∧ decode_flags 999 = [] ∧
    (fsw_event_flag.MovedFrom ∈ decode_flags FILE_ACTION_RENAMED_OLD_NAME ↔
      (fsw_event_flag.MovedFrom = fsw_event_flag.MovedFrom ∨
       fsw_event_flag.MovedFrom = fsw_event_flag.Renamed)) :=
  ⟨by decide,
    decode_flags_table_exact.2.2.2.2.2 999 (by decide) (by decide) (by decide)
      (by decide) (by decide),
    decode_flags_table_exact.2.2.2.1 fsw_event_flag.MovedFrom⟩

theorem chandle_is_valid_of_invalid : CHandle.is_valid HANDLE.invalid = false := rfl

/-! ### Claim C8 -/

/-- C8: the CHandle wrapper releases exactly once.  Plain assignment and
move-assignment close the previously held handle exactly when it is
valid, before storing the new one; destruction closes the handle only if
valid; moving (by constructor or assignment) leaves the source holding
the invalid sentinel, so destroying both objects afterwards closes the
moved handle exactly once (and never a second time on any exit path);
self-move-assignment is a no-op. -/
theorem chandle_release_exactly_once :
    (∀ c n, CHandle.is_valid c = true → CHandle.assign c n = (n, [c])) ∧
    (∀ c n, CHandle.is_valid c = false → CHandle.assign c n = (n, [])) ∧
    (∀ c, CHandle.is_valid c = true → CHandle.destruct c = [c]) ∧
    (∀ c, CHandle.is_valid c = false → CHandle.destruct c = []) ∧
    (∀ h, (CHandle.moveCtor h).2 = HANDLE.invalid ∧
      (CHandle.destruct (CHandle.moveCtor h).1 ++
        CHandle.destruct (CHandle.moveCtor h).2).count h =
        (if CHandle.is_valid h then 1 else 0)) ∧
    (∀ dst src, (CHandle.moveAssign false dst src).1.2 = HANDLE.invalid ∧
      (CHandle.moveAssign false dst src).2 =
        (if CHandle.is_valid dst then [dst] else [])) ∧
    (∀ dst src, dst ≠ src →
      ((CHandle.moveAssign false dst src).2 ++
        CHandle.destruct (CHandle.moveAssign false dst src).1.1 ++
        CHandle.destruct (CHandle.moveAssign false dst src).1.2).count src =
        (if CHandle.is_valid src then 1 else 0)) ∧
    (∀ dst src, dst ≠ src →
      ((CHandle.moveAssign false dst src).2 ++
        CHandle.destruct (CHandle.moveAssign false dst src).1.1 ++
        CHandle.destruct (CHandle.moveAssign false dst src).1.2).count dst =
        (if CHandle.is_valid dst then 1 else 0)) ∧
    (∀ dst src, CHandle.moveAssign true dst src = ((dst, src), [])) := by
  refine ⟨?_, ?_, ?_, ?_, ?_, ?_, ?_, ?_, ?_⟩
  · intro c n hv
    simp [CHandle.assign, hv]
  · intro c n hv
    simp [CHandle.assign, hv]
  · intro c hv
    simp [CHandle.destruct, hv]
  · intro c hv
    simp [CHandle.destruct, hv]
  · intro h
    refine ⟨rfl, ?_⟩
    cases hv : CHandle.is_valid h <;>
      simp [CHandle.moveCtor, CHandle.destruct, chandle_is_valid_of_invalid, hv]
  · intro dst src
    exact ⟨rfl, rfl⟩
  · intro dst src hne
    cases hv : CHandle.is_valid src <;>
      cases hd : CHandle.is_valid dst <;>
        simp [CHandle.moveAssign, CHandle.destruct, chandle_is_valid_of_invalid, hv,
          hd, List.count_cons, List.count_append, Ne.symm hne, hne]
  · intro dst src hne
    cases hv : CHandle.is_valid src <;>
      cases hd : CHandle.is_valid dst <;>
        simp [CHandle.moveAssign, CHandle.destruct, chandle_is_valid_of_invalid, hv,
          hd, List.count_cons, List.count_append, Ne.symm hne, hne]
  · intro dst src
    simp [CHandle.moveAssign]

/-- Witness for C8: moving from a wrapper holding handle 3 into one holding
handle 4 closes 4 at assignment and, after both objects are destroyed,
has closed 3 exactly once. -/
theorem chandle_release_exactly_once_witness :
    (HANDLE.real 4 : HANDLE) ≠ HANDLE.real 3 ∧
    ((CHandle.moveAssign false (HANDLE.real 4) (HANDLE.real 3)).2 ++
      CHandle.destruct (CHandle.moveAssign false (HANDLE.real 4) (HANDLE.real 3)).1.1 ++
      CHandle.destruct (CHandle.moveAssign false (HANDLE.real 4) (HANDLE.real 3)).1.2).count
        (HANDLE.real 3) = 1 :=
  ⟨by decide,
    chandle_release_exactly_once.2.2.2.2.2.2.1 (HANDLE.real 4) (HANDLE.real 3)
      (by decide)⟩

/-! ### Claim C9 -/

/-- C9: init_search_for_path is atomic with respect to the registry and
leak-free: on open failure it returns false with the registry unchanged;
on first-read failure (after a successful open and allocation) it returns
false with the registry unchanged and the opened handle closed before
returning; the session is inserted only when the first read was issued
successfully; and on every non-throwing false return the registry is
exactly the input registry. -/
theorem init_search_atomic_leak_free (reg : Registry) (path : WStr) (env : TickEnv) :
    (CHandle.is_valid env.openResult = false →
      init_search_for_path reg path env = Except.ok (false, reg, [])) ∧
    (CHandle.is_valid env.openResult = true → env.allocOk = true → env.readOk = false →
      init_search_for_path reg path env =
        Except.ok (false, reg,
          [OSAction.openFile env.openResult, OSAction.issueRead,
           OSAction.closeHandle env.openResult])) ∧
    (CHandle.is_valid env.openResult = true → env.allocOk = true → env.readOk = true →
      init_search_for_path reg path env =
        Except.ok (true, insertReg reg path (mkDCE 128 env.openResult),
          [OSAction.openFile env.openResult, OSAction.issueRead]) ∧
      lookupReg (insertReg reg path (mkDCE 128 env.openResult)) path =
        some (mkDCE 128 env.openResult)) ∧
    (∀ ok reg2 tr, init_search_for_path reg path env = Except.ok (ok, reg2, tr) →
      ok = false → reg2 = reg) := by
  refine ⟨?_, ?_, ?_, ?_⟩
  · intro hv
    simp [init_search_for_path, hv]
  · intro hv ha hr
    simp [init_search_for_path, hv, ha, hr]
  · intro hv ha hr
    exact ⟨by simp [init_search_for_path, hv, ha, hr], lookupReg_insertReg reg path _⟩
  · intro ok reg2 tr heq hok
    subst hok
    unfold init_search_for_path at heq
    by_cases hv : CHandle.is_valid env.openResult = false
    · rw [if_pos hv] at heq
      cases heq
      rfl
    · rw [if_neg hv] at heq
      by_cases ha : env.allocOk = false
      · rw [if_pos ha] at heq
        cases heq
      · rw [if_neg ha] at heq
        by_cases hr : env.readOk = false
        · rw [if_pos hr] at heq
          cases heq
          rfl
        · rw [if_neg hr] at heq
          cases heq

/-- Environment for the C9 witness: the open succeeds (handle 9), the
allocation succeeds, but the first ReadDirectoryChangesW fails. -/
def envInitReadFail : TickEnv :=
  ⟨HANDLE.real 9, true, false, PollResult.failed 5, [], true, true, true⟩

/-- Witness for C9: with a successful open and a failing first read, init
returns false, leaves the registry unchanged, and closes handle 9. -/
theorem init_search_atomic_leak_free_witness :
    CHandle.is_valid envInitReadFail.openResult = true ∧
    envInitReadFail.allocOk = true ∧ envInitReadFail.readOk = false ∧
    init_search_for_path regW pW envInitReadFail =
      Except.ok (false, regW,
        [OSAction.openFile envInitReadFail.openResult, OSAction.issueRead,
         OSAction.closeHandle envInitReadFail.openResult]) :=
  ⟨by decide, by decide, by decide,
    (init_search_atomic_leak_free regW pW envInitReadFail).2.1 (by decide) (by decide)
      (by decide)⟩

/-! ### Claim C6 -/

/-- C6: when the poll of a watched path succeeds with zero bytes returned
(and the subsequent ResetEvent and read reissue succeed, as the per-path
handling assumes), no events are produced, the registry is unchanged (the
session stays Watching), and a fresh asynchronous read is issued in the
same tick. -/
theorem zero_bytes_keeps_session_reissues (reg : Registry) (path : WStr)
    (env : TickEnv) (dce : DirectoryChangeEvent)
    (hl : lookupReg reg path = some dce)
    (hp : env.poll = PollResult.success 0)
    (hreset : env.resetOk = true) (hreissue : env.reissueOk = true) :
    process_path reg path env =
      Except.ok (reg, [], [OSAction.resetEvent, OSAction.issueRead]) := by
  unfold process_path
  rw [hl]
  unfold poll_session
  rw [hp]
  simp [hreset, hreissue]

/-- Environment for the C6 witness: a successful poll returning 0 bytes. -/
def envZeroBytes : TickEnv :=
  ⟨HANDLE.invalid, true, true, PollResult.success 0, [], true, true, true⟩

/-- Witness for C6: with session regW present for pW, a zero-byte poll
leaves the registry as regW, emits nothing, and reissues the read. -/
theorem zero_bytes_keeps_session_reissues_witness :
    lookupReg regW pW = some dceW ∧
    envZeroBytes.poll = PollResult.success 0 ∧
    process_path regW pW envZeroBytes =
      Except.ok (regW, [], [OSAction.resetEvent, OSAction.issueRead]) :=
  ⟨by decide, by decide,
    zero_bytes_keeps_session_reissues regW pW envZeroBytes dceW (by decide) (by decide)
      (by decide) (by decide)⟩

/-! ### Claim C5 -/

/-- C5: a completion error other than "incomplete" or "overflow" evicts the
session: the step returns the registry with the path erased and no events;
the erased registry has no entry for the path; and on the next tick the
step attempts re-initialization, lazily re-creating the session (shown for
an environment whose open, allocation and first read succeed: the path is
back in the registry afterwards). -/
theorem poll_error_evicts_and_reinits (reg : Registry) (path : WStr)
    (env env2 : TickEnv) (dce : DirectoryChangeEvent) (err : Nat)
    (hl : lookupReg reg path = some dce)
    (hp : env.poll = PollResult.failed err)
    (h1 : err ≠ ERROR_IO_INCOMPLETE) (h2 : err ≠ ERROR_NOTIFY_ENUM_DIR)
    (hopen : CHandle.is_valid env2.openResult = true)
    (halloc : env2.allocOk = true) (hread : env2.readOk = true)
    (hpoll2 : env2.poll = PollResult.failed ERROR_IO_INCOMPLETE) :
    process_path reg path env = Except.ok (stop_search_for_path reg path, [], []) ∧
    lookupReg (stop_search_for_path reg path) path = none ∧
    process_path (stop_search_for_path reg path) path env2 =
      Except.ok
        (insertReg (stop_search_for_path reg path) path (mkDCE 128 env2.openResult),
         [], [OSAction.openFile env2.openResult, OSAction.issueRead]) := by
  have hnone : lookupReg (stop_search_for_path reg path) path = none :=
    lookupReg_eraseReg reg path
  refine ⟨?_, hnone, ?_⟩
  · simp [process_path, hl, poll_session, hp, h1]
  · simp [process_path, hnone, init_search_for_path, hopen, halloc, hread,
      poll_session, hpoll2, ERROR_IO_INCOMPLETE]

/-- Environment for the C5 witness: GetOverlappedResult fails with
ERROR_ACCESS_DENIED (5). -/
def envErr5 : TickEnv :=
  ⟨HANDLE.invalid, true, true, PollResult.failed 5, [], true, true, true⟩

/-- Environment for the C5 witness's next tick: open succeeds (handle 11)
and the fresh request polls incomplete. -/
def envReinit : TickEnv :=
  ⟨HANDLE.real 11, true, true, PollResult.failed ERROR_IO_INCOMPLETE, [], true, true, true⟩

/-- Witness for C5: error 5 evicts the session for pW; the next tick
re-creates it. -/
theorem poll_error_evicts_and_reinits_witness :
    lookupReg regW pW = some dceW ∧ (5 : Nat) ≠ ERROR_IO_INCOMPLETE ∧
    (5 : Nat) ≠ ERROR_NOTIFY_ENUM_DIR ∧
    (process_path regW pW envErr5 = Except.ok (stop_search_for_path regW pW, [], []) ∧
     lookupReg (stop_search_for_path regW pW) pW = none ∧
     process_path (stop_search_for_path regW pW) pW envReinit =
       Except.ok (insertReg (stop_search_for_path regW pW) pW (mkDCE 128 envReinit.openResult),
         [], [OSAction.openFile envReinit.openResult, OSAction.issueRead])) :=
  ⟨by decide, by decide, by decide,
    poll_error_evicts_and_reinits regW pW envErr5 envReinit dceW 5 (by decide) (by decide)
      (by decide) (by decide) (by decide) (by decide) (by decide) (by decide)⟩

/-! ### Claim C1 -/

/-- Environment whose poll reports the buffer-overflow completion error
ERROR_NOTIFY_ENUM_DIR. -/
def envOvf : TickEnv :=
  ⟨HANDLE.invalid, true, true, PollResult.failed ERROR_NOTIFY_ENUM_DIR, [], true, true, true⟩

/-- Counterexample to C1 as stated: with the session for pW registered, a
poll returning the overflow completion error does NOT leave the session in
the registry and does NOT reissue a read — the step returns the empty
registry (the session was evicted, a state change) and an empty action
trace (no read was issued).  In the source, the ERROR_NOTIFY_ENUM_DIR
branch (line 362-365) only logs and then falls through to
stop_search_for_path (line 369). -/
theorem overflow_keeps_session_counterexample :
    lookupReg regW pW = some dceW ∧
    process_path regW pW envOvf = Except.ok ([], [], []) := by
  constructor
  · rfl
  · rfl

/-- C1 (amended): on a poll returning the buffer-overflow completion error
the session is evicted from the SessionRegistry, exactly like any other
non-incomplete completion error, with no events and no reissued read; the
next tick lazily re-initializes the path, and a valid record arriving on a
poll after re-initialization is decoded normally. -/
theorem overflow_evicts_and_reinit_decodes (reg : Registry) (path : WStr)
    (env env2 : TickEnv) (dce : DirectoryChangeEvent) (r : Record)
    (junk : List Nat) (b : Nat)
    (hl : lookupReg reg path = some dce)
    (hp : env.poll = PollResult.failed ERROR_NOTIFY_ENUM_DIR)
    (hopen : CHandle.is_valid env2.openResult = true)
    (halloc : env2.allocOk = true) (hread : env2.readOk = true)
    (hpoll2 : env2.poll = PollResult.success b) (hb : b ≠ 0)
    (hbuf : env2.buffer = encodeRecords [r] ++ junk) (hwf : wfRecord r)
    (hconv : env2.convOk = true) (hreset : env2.resetOk = true)
    (hreissue : env2.reissueOk = true) :
    process_path reg path env = Except.ok (stop_search_for_path reg path, [], []) ∧
    process_path (stop_search_for_path reg path) path env2 =
      Except.ok
        (insertReg (stop_search_for_path reg path) path (mkDCE 128 env2.openResult),
         [path ++ [92] ++ r.name],
         [OSAction.openFile env2.openResult, OSAction.issueRead,
          OSAction.resetEvent, OSAction.issueRead]) := by
  have hnone : lookupReg (stop_search_for_path reg path) path = none :=
    lookupReg_eraseReg reg path
  have hdec : decode_buffer path env2.buffer = [path ++ [92] ++ r.name] := by
    rw [hbuf, decode_buffer_encode path [r] junk (by simp)
      (fun r2 hr2 => by simp at hr2; rw [hr2]; exact hwf.2)]
    simp [eventsOf, hwf.1]
  constructor
  · simp [process_path, hl, poll_session, hp, ERROR_NOTIFY_ENUM_DIR, ERROR_IO_INCOMPLETE]
  · simp [process_path, hnone, init_search_for_path, hopen, halloc, hread,
      poll_session, hpoll2, hb, hdec, hconv, hreset, hreissue]

/-- Environment for the C1 witness's next tick: open succeeds (handle 13)
and the poll returns 14 bytes holding one Added record for "a". -/
def envOvfNext : TickEnv :=
  ⟨HANDLE.real 13, true, true, PollResult.success 14, encodeRecords [⟨1, [97]⟩] ++ [],
   true, true, true⟩

/-- Witness for the amended C1: the overflow evicts the session for pW and
the next tick re-initializes it and decodes the record "a" normally. -/
theorem overflow_evicts_and_reinit_decodes_witness :
    lookupReg regW pW = some dceW ∧ envOvf.poll = PollResult.failed ERROR_NOTIFY_ENUM_DIR ∧
    wfRecord ⟨1, [97]⟩ ∧
    (process_path regW pW envOvf = Except.ok (stop_search_for_path regW pW, [], []) ∧
     process_path (stop_search_for_path regW pW) pW envOvfNext =
       Except.ok
         (insertReg (stop_search_for_path regW pW) pW (mkDCE 128 envOvfNext.openResult),
          [pW ++ [92] ++ [97]],
          [OSAction.openFile envOvfNext.openResult, OSAction.issueRead,
           OSAction.resetEvent, OSAction.issueRead])) :=
  ⟨by decide, by decide, by decide,
    overflow_evicts_and_reinit_decodes regW pW envOvf envOvfNext dceW ⟨1, [97]⟩ [] 14
      (by decide) (by decide) (by decide) (by decide) (by decide) (by decide) (by decide)
      (by decide) (by decide) (by decide) (by decide) (by decide)⟩

/-! ### Claim C7 -/

/-- C7: within the watch loop, exactly three conditions are fatal (raise a
terminating libfsw_exception out of the loop instead of affecting a single
path): allocation failure while constructing a session's
DirectoryChangeEvent (notification buffer or OVERLAPPED header, lines
170-171), failure to convert a decoded name to the output encoding (line
402, only reachable when a successful nonzero-byte poll decoded at least
one event), and failure to reset the completion object's signaled state
after a successful poll (line 415).  Each equivalence characterizes one
fatal outcome; every other situation yields a non-fatal result. -/
theorem fatal_conditions_exact (reg : Registry) (path : WStr) (env : TickEnv) :
    (process_path reg path env = Except.error FatalError.allocFailed ↔
      lookupReg reg path = none ∧ CHandle.is_valid env.openResult = true ∧
        env.allocOk = false) ∧
    (process_path reg path env = Except.error FatalError.convFailed ↔
      reachesPoll reg path env = true ∧ pollEvents path env ≠ [] ∧
        env.convOk = false) ∧
    (process_path reg path env = Except.error FatalError.resetFailed ↔
      reachesPoll reg path env = true ∧ (∃ b, env.poll = PollResult.success b) ∧
        (pollEvents path env = [] ∨ env.convOk = true) ∧ env.resetOk = false) := by
  obtain ⟨o, a, rd, pl, bufr, cv, rs, ri⟩ := env
  cases hl : lookupReg reg path with
  | some dce =>
    cases pl with
    | failed err =>
      by_cases he : err = ERROR_IO_INCOMPLETE <;>
        simp [process_path, hl, poll_session, reachesPoll, pollEvents, he]
    | success b =>
      by_cases hb : b = 0
      · subst hb
        cases cv <;> cases rs <;> cases ri <;>
          simp [process_path, hl, poll_session, reachesPoll, pollEvents]
      · by_cases hd : decode_buffer path bufr = [] <;>
          cases cv <;> cases rs <;> cases ri <;>
            simp [process_path, hl, poll_session, reachesPoll, pollEvents, hb, hd]
  | none =>
    cases hv : CHandle.is_valid o with
    | false =>
      simp [process_path, hl, init_search_for_path, hv, reachesPoll, pollEvents]
    | true =>
      cases a with
      | false =>
        simp [process_path, hl, init_search_for_path, hv, reachesPoll, pollEvents]
      | true =>
        cases rd with
        | false =>
          simp [process_path, hl, init_search_for_path, hv, reachesPoll, pollEvents]
        | true =>
          cases pl with
          | failed err =>
            by_cases he : err = ERROR_IO_INCOMPLETE <;>
              simp [process_path, hl, init_search_for_path, hv, poll_session,
                reachesPoll, pollEvents, he]
          | success b =>
            by_cases hb : b = 0
            · subst hb
              cases cv <;> cases rs <;> cases ri <;>
                simp [process_path, hl, init_search_for_path, hv, poll_session,
                  reachesPoll, pollEvents]
            · by_cases hd : decode_buffer path bufr = [] <;>
                cases cv <;> cases rs <;> cases ri <;>
                  simp [process_path, hl, init_search_for_path, hv, poll_session,
                    reachesPoll, pollEvents, hb, hd]
